import Mathlib

/-!
Shallow embedding of the binary deserialization engine of `rootfilespec`
(reader for ROOT files and their RNTuple structures), together with proofs
of the documented envelope/frame/locator/key invariants.

The embedding follows the Python sources:
  * `structutil.py`        : `ReadBuffer`, `unpack`, `consume`, slicing
  * `bootstrap/RFrame.py`  : record frames, list frames, `ClusterSummary`
  * `bootstrap/REnvelope.py` and `bootstrap/envelope_base.py` : envelopes
  * `bootstrap/REnvelopeLink.py` : envelope links and locators
  * `bootstrap/TKey.py`    : `TKey` records and `read_object`
  * `container.py`         : `_ArrayReader` (pad-byte arrays)
  * `rntuple/RNTuple.py`   : `RNTuple.from_anchor`

Python exceptions are modelled by an error type aligned with the error
taxonomy of the specification; machine integers are `Nat`/`Int` with the
exact masks and shifts of the source.  Python performs bitwise operations
on negative integers over the two's-complement representation, which the
embedding mirrors by working on the unsigned representation explicitly.
-/

/-- Error kinds.  Each `raise` site of the Python sources is mapped to the
corresponding kind of the specification's error taxonomy:
`truncated` for `struct.error` on short data, `indexError` for slicing past
the end of a buffer, `invalid` for `ValueError` on a value outside its
domain, `corrupt` for `ValueError` on declared-versus-observed length or
checksum mismatches, `unimplemented` for `NotImplementedError`,
`unknownLocatorType` for the unknown locator tag, and `recursionLimit` for
CPython's `RecursionError`. -/
inductive RErr where
  | truncated
  | indexError
  | invalid
  | corrupt
  | unimplemented
  | unknownLocatorType
  | recursionLimit
  deriving Repr, DecidableEq

instance {ε α : Type} [DecidableEq ε] [DecidableEq α] : DecidableEq (Except ε α) := fun a b =>
  match a, b with
  | .ok x, .ok y => if h : x = y then .isTrue (by rw [h]) else .isFalse (by simp [h])
  | .error x, .error y => if h : x = y then .isTrue (by rw [h]) else .isFalse (by simp [h])
  | .ok _, .error _ => .isFalse (by simp)
  | .error _, .ok _ => .isFalse (by simp)

/-- The positional read buffer of `structutil.py`: a byte view (`data`,
bytes as naturals below 256), an optional absolute file position, the
relative position from the start of the enclosing TKey, and the local
class-name reference table shared between a buffer and its slices. -/
structure ReadBuffer where
  data : List Nat
  abspos : Option Nat
  relpos : Nat
  localRefs : List (Nat × List Nat)
  deriving Repr, DecidableEq

/-- Advancing a buffer by `k` bytes: drop `k` bytes of data and move both
positions forward.  This is the common core of `__getitem__` with a
`[k:]` slice; the bound check of `__getitem__` is in `ReadBuffer.getitemFrom`. -/
def ReadBuffer.advance (b : ReadBuffer) (k : Nat) : ReadBuffer :=
  { data := b.data.drop k
    abspos := b.abspos.map (· + k)
    relpos := b.relpos + k
    localRefs := b.localRefs }

/-- `ReadBuffer.__getitem__` of `structutil.py` applied to the slice
`[start:]` (so `key.start or 0 = start`, no stop): raises `IndexError`
when `start` exceeds the data length, otherwise yields the advanced buffer
with the identical shared `local_refs` table. -/
def ReadBuffer.getitemFrom (b : ReadBuffer) (start : Nat) : Except RErr ReadBuffer :=
  if start > b.data.length then .error .indexError
  else .ok (b.advance start)

/-- Little-endian value of a byte string (least significant byte first).
Each entry is reduced mod 256, as a byte. -/
def leNat : List Nat → Nat
  | [] => 0
  | b :: bs => b % 256 + 256 * leNat bs

/-- Big-endian value of a byte string (most significant byte first). -/
def beNat (bs : List Nat) : Nat := leNat bs.reverse

/-- Two's-complement reading of an unsigned `bits`-bit value. -/
def toSigned (bits : Nat) (v : Nat) : Int :=
  if v < 2 ^ (bits - 1) then (v : Int) else (v : Int) - 2 ^ bits

/-- Unsigned `bits`-bit representation of a Python integer, used to mirror
Python's bitwise operators on (possibly negative) integers. -/
def toUnsigned (bits : Nat) (v : Int) : Nat := (v % (2 ^ bits : Nat)).toNat

/-- One field of a `struct` format string: width and signedness. -/
inductive FItem where
  | u8 | i8 | u16 | i16 | u32 | i32 | u64 | i64
  deriving Repr, DecidableEq

/-- Byte width of a format field (`struct.calcsize` of the single field). -/
def FItem.nbytes : FItem → Nat
  | .u8 | .i8 => 1
  | .u16 | .i16 => 2
  | .u32 | .i32 => 4
  | .u64 | .i64 => 8

/-- A primitive value unpacked from a buffer. -/
inductive PrimVal where
  | uns (v : Nat)
  | sgn (v : Int)
  deriving Repr, DecidableEq

/-- Decode one format field from its bytes with the given endianness. -/
def FItem.decode (little : Bool) (it : FItem) (bs : List Nat) : PrimVal :=
  let u := if little then leNat bs else beNat bs
  match it with
  | .u8 | .u16 | .u32 | .u64 => .uns u
  | .i8 => .sgn (toSigned 8 u)
  | .i16 => .sgn (toSigned 16 u)
  | .i32 => .sgn (toSigned 32 u)
  | .i64 => .sgn (toSigned 64 u)

/-- A `struct` format string: endianness marker and the field list. -/
structure SFmt where
  little : Bool
  items : List FItem
  deriving Repr, DecidableEq

/-- `struct.calcsize`: total byte width of a format. -/
def SFmt.calcsize (f : SFmt) : Nat := (f.items.map FItem.nbytes).sum

/-- Decode the fields of a format from a byte string, consuming each
field's width in turn. -/
def decodeFields (little : Bool) : List FItem → List Nat → List PrimVal
  | [], _ => []
  | it :: its, bs => it.decode little (bs.take it.nbytes) :: decodeFields little its (bs.drop it.nbytes)

/-- `ReadBuffer.unpack` of `structutil.py`: `struct.unpack(fmt, data[:size])`
raises (`Truncated`) when fewer than `calcsize(fmt)` bytes remain, else
returns the decoded tuple and the remainder `self[size:]`. -/
def ReadBuffer.unpack (b : ReadBuffer) (f : SFmt) : Except RErr (List PrimVal × ReadBuffer) :=
  if b.data.length < f.calcsize then .error .truncated
  else .ok (decodeFields f.little f.items (b.data.take f.calcsize), b.advance f.calcsize)

/-- `ReadBuffer.consume` of `structutil.py`: a negative size raises
`ValueError` (`Invalid`); then `data[:size].tobytes()` is returned together
with `self[size:]`, whose bound check raises `IndexError` when `size`
exceeds the remaining length. -/
def ReadBuffer.consume (b : ReadBuffer) (size : Int) : Except RErr (List Nat × ReadBuffer) :=
  if size < 0 then .error .invalid
  else if size.toNat > b.data.length then .error .indexError
  else .ok (b.data.take size.toNat, b.advance size.toNat)

/-- A reader in the style of the Python decoders: consume a prefix of a
buffer and return a value together with the remaining buffer. -/
abbrev Reader (α : Type) := ReadBuffer → Except RErr (α × ReadBuffer)

/-- The single-field instance of `ReadBuffer.unpack`: raise `Truncated`
when fewer than `n` bytes remain, else decode the first `n` bytes and
return the remainder `self[n:]`. -/
def ReadBuffer.readPrim {α : Type} (n : Nat) (dec : List Nat → α) (b : ReadBuffer) :
    Except RErr (α × ReadBuffer) :=
  if b.data.length < n then .error .truncated
  else .ok (dec (b.data.take n), b.advance n)

/-- `buffer.unpack("<Q")` returning the single value. -/
def ReadBuffer.readU64LE : Reader Nat := ReadBuffer.readPrim 8 leNat

/-- `buffer.unpack("<q")` returning the single value. -/
def ReadBuffer.readI64LE : Reader Int := ReadBuffer.readPrim 8 (fun bs => toSigned 64 (leNat bs))

/-- `buffer.unpack("<I")` returning the single value. -/
def ReadBuffer.readU32LE : Reader Nat := ReadBuffer.readPrim 4 leNat

/-- `buffer.unpack("<i")` returning the single value. -/
def ReadBuffer.readI32LE : Reader Int := ReadBuffer.readPrim 4 (fun bs => toSigned 32 (leNat bs))

/-- `buffer.unpack(">i")` returning the single value. -/
def ReadBuffer.readI32BE : Reader Int := ReadBuffer.readPrim 4 (fun bs => toSigned 32 (beNat bs))

/-- `buffer.unpack(">I")` returning the single value. -/
def ReadBuffer.readU32BE : Reader Nat := ReadBuffer.readPrim 4 beNat

/-- `buffer.unpack(">h")` returning the single value. -/
def ReadBuffer.readI16BE : Reader Int := ReadBuffer.readPrim 2 (fun bs => toSigned 16 (beNat bs))

/-- `buffer.unpack(">q")` returning the single value. -/
def ReadBuffer.readI64BE : Reader Int := ReadBuffer.readPrim 8 (fun bs => toSigned 64 (beNat bs))

/-- Reading one raw byte (used for length prefixes). -/
def ReadBuffer.readU8 : Reader Nat := ReadBuffer.readPrim 1 leNat

/-- `b'` is the result of advancing `b` by some number of available bytes.
Every reader of the Python sources only moves through a buffer by slicing,
so its output buffer is related to its input in this way. -/
def Advances (b b' : ReadBuffer) : Prop :=
  ∃ k, k ≤ b.data.length ∧ b' = b.advance k

/-- A reader that, whenever it succeeds, returns a buffer obtained from its
input by slicing (position arithmetic is load-bearing: §5 of the spec). -/
def ReaderAdvances {α : Type} (f : Reader α) : Prop :=
  ∀ b x b', f b = .ok (x, b') → Advances b b'

/-- A record or list frame as stored by `RFrame` of `bootstrap/RFrame.py`:
the (unsigned magnitude of the) declared size, the decoded payload, and
the opaque unknown trailing bytes `_unknown`. -/
structure RFrameData (α : Type) where
  fSize : Nat
  payload : α
  unknown : List Nat
  deriving Repr, DecidableEq

/-- A list frame as stored by `ListFrame` of `bootstrap/RFrame.py`: the
declared size magnitude, the item list, the extra members read by the
subclass hook `read_members`, and the unknown trailing bytes. -/
structure ListFrameData (α β : Type) where
  fSize : Nat
  items : List α
  extra : β
  unknown : List Nat
  deriving Repr, DecidableEq

/-- The item loop of `ListFrame.read_as`: read exactly `n` items in
sequence with the item type's reader. -/
def readItems {α : Type} (readItem : Reader α) : Nat → ReadBuffer → Except RErr (List α × ReadBuffer)
  | 0, b => .ok ([], b)
  | n + 1, b => do
    let (x, b1) ← readItem b
    let (xs, b2) ← readItems readItem n b1
    .ok (x :: xs, b2)

/-- `RecordFrame.read` of `bootstrap/RFrame.py`, parameterized by the
`read_members` method of the record-frame subclass: read the signed 64-bit
size (must be positive, else `Invalid`), the payload, then consume
`fSize - bytes_read` unknown trailing bytes. -/
def RecordFrame.read {α : Type} (readMembers : Reader α) (buffer : ReadBuffer) :
    Except RErr (RFrameData α × ReadBuffer) := do
  let startPosition := buffer.relpos
  let (fSize, b1) ← buffer.readI64LE
  if fSize ≤ 0 then .error .invalid
  else do
    let (args, b2) ← readMembers b1
    let (unk, b3) ← b2.consume (fSize - ((b2.relpos : Int) - (startPosition : Int)))
    .ok (⟨fSize.toNat, args, unk⟩, b3)

/-- `ListFrame.read_as` of `bootstrap/RFrame.py`, parameterized by the item
reader and by the `read_members` hook for subclass extra members: read the
signed 64-bit size (must be negative, else `Invalid`), take its absolute
value, read the unsigned 32-bit item count, read that many items, the
extra members, then consume `|fSize| - bytes_read` unknown trailing bytes. -/
def ListFrame.readAs {α β : Type} (readItem : Reader α) (readMembers : Reader β)
    (buffer : ReadBuffer) : Except RErr (ListFrameData α β × ReadBuffer) := do
  let startPosition := buffer.relpos
  let (fSize, b1) ← buffer.readI64LE
  if fSize ≥ 0 then .error .invalid
  else do
    let size := fSize.natAbs
    let (nItems, b2) ← b1.readU32LE
    let (items, b3) ← readItems readItem nItems b2
    let (extra, b4) ← readMembers b3
    let (unk, b5) ← b4.consume ((size : Int) - ((b4.relpos : Int) - (startPosition : Int)))
    .ok (⟨size, items, extra, unk⟩, b5)

/-- `RFrame.read_as` of `bootstrap/RFrame.py`: peek at the signed 64-bit
size without consuming it and dispatch on its sign.  A zero size raises
`Invalid` ("Expected metadata to be non-zero").  A negative size reads a
list frame.  For a positive size the source calls `RecordFrame.read_as`,
which resolves to this inherited dispatcher itself; the self-call makes no
progress, so in CPython it exhausts the recursion limit and raises
`RecursionError`, modelled here as the error `recursionLimit`. -/
def RFrame.readAs {α β : Type} (readItem : Reader α) (readMembers : Reader β)
    (buffer : ReadBuffer) : Except RErr (ListFrameData α β × ReadBuffer) := do
  let (fSize, _) ← buffer.readI64LE
  if fSize > 0 then .error .recursionLimit
  else if fSize < 0 then ListFrame.readAs readItem readMembers buffer
  else .error .invalid

/-- An envelope as stored by `REnvelope` of `bootstrap/REnvelope.py`:
type id, declared length, trailing checksum, decoded payload, and opaque
unknown trailing bytes. -/
structure REnvelopeData (α : Type) where
  typeID : Nat
  length : Nat
  checksum : Nat
  payload : α
  unknown : List Nat
  deriving Repr, DecidableEq

/-- `REnvelope.read` of `bootstrap/REnvelope.py` (the same body as
`bootstrap/envelope_base.py` apart from the latter's name check),
parameterized by the payload `read_members` method: read the leading
little-endian `u64` whose low 16 bits are the type id and whose high 48
bits are the declared length; raise `Corrupt` unless `length - 8` equals
the remaining buffer length; read the payload, consume
`length - bytes_read - 8` unknown bytes, and read the trailing 8-byte
checksum. -/
def REnvelope.read {α : Type} (readMembers : Reader α) (buffer : ReadBuffer) :
    Except RErr (REnvelopeData α × ReadBuffer) := do
  let payloadStartPos := buffer.relpos
  let (lengthType, b1) ← buffer.readU64LE
  let typeID := lengthType % 65536
  let length := lengthType / 65536
  if (length : Int) - 8 ≠ (b1.data.length : Int) then .error .corrupt
  else do
    let (args, b2) ← readMembers b1
    let (unk, b3) ← b2.consume ((length : Int) - ((b2.relpos : Int) - (payloadStartPos : Int)) - 8)
    let (checksum, b4) ← b3.readU64LE
    .ok (⟨typeID, length, checksum, args, unk⟩, b4)

/-- A locator as produced by `RLocator.read` of `bootstrap/REnvelopeLink.py`:
either a standard locator (positive 32-bit size, 64-bit offset) or a large
locator (64-bit size and offset). -/
inductive RLocator where
  | standard (size : Nat) (offset : Nat)
  | large (size : Nat) (offset : Nat)
  deriving Repr, DecidableEq

/-- The `size` attribute of a locator: the byte count to fetch. -/
def RLocator.size : RLocator → Nat
  | .standard s _ => s
  | .large s _ => s

/-- The `offset` attribute of a locator. -/
def RLocator.offset : RLocator → Nat
  | .standard _ o => o
  | .large _ o => o

/-- `get_buffer` of the locator subclasses: fetch `size` bytes at `offset`. -/
def RLocator.getBuffer (loc : RLocator) (fetchData : Nat → Nat → ReadBuffer) : ReadBuffer :=
  fetchData loc.offset loc.size

/-- `StandardLocator.read`: consume the signed 32-bit size (the locator's
size is its absolute value) and the unsigned 64-bit offset. -/
def StandardLocator.read (buffer : ReadBuffer) : Except RErr (RLocator × ReadBuffer) := do
  let (size, b1) ← buffer.readI32LE
  let (offset, b2) ← b1.readU64LE
  .ok (.standard size.natAbs offset, b2)

/-- `LargeLocator.read`: consume the unsigned 64-bit size and the unsigned
64-bit offset (the payload after the 32-bit non-standard header). -/
def LargeLocator.read (buffer : ReadBuffer) : Except RErr (RLocator × ReadBuffer) := do
  let (size, b1) ← buffer.readU64LE
  let (offset, b2) ← b1.readU64LE
  .ok (.large size offset, b2)

/-- `RLocator.read` of `bootstrap/REnvelopeLink.py`: peek at the leading
signed 32-bit integer; when non-negative dispatch to `StandardLocator.read`
(which re-consumes it), otherwise consume the word and split it into the
low 16-bit locator size, the next 8-bit reserved field and the high 8-bit
locator type (Python's masks and shifts on the negative integer act on its
two's-complement representation, mirrored here via `toUnsigned`); type
`0x01` dispatches to `LargeLocator.read`, any other type raises
`UnknownLocatorType`. -/
def RLocator.read (buffer : ReadBuffer) : Except RErr (RLocator × ReadBuffer) := do
  let (sizeType, _) ← buffer.readI32LE
  if 0 ≤ sizeType then StandardLocator.read buffer
  else do
    let (locatorSizeReservedType, b1) ← buffer.readI32LE
    let u := toUnsigned 32 locatorSizeReservedType
    let _locatorSize := u % 65536
    let _reserved := (u / 65536) % 256
    let locatorType := (u / 16777216) % 256
    if locatorType = 1 then LargeLocator.read b1
    else .error .unknownLocatorType

/-- An envelope link: declared uncompressed length and locator
(`REnvelopeLink` of `bootstrap/envelope_base.py`). -/
structure REnvelopeLink where
  length : Nat
  locator : RLocator
  deriving Repr, DecidableEq

/-- `REnvelopeLink.read_envelope` of `bootstrap/envelope_base.py`,
parameterized by the envelope type's reader: fetch `locator.size` bytes at
the locator's offset; raise `Unimplemented` when `locator.size` differs
from the link's declared uncompressed length (compressed envelopes are not
supported); peek at the leading `u64` and raise `Corrupt` unless its high
48 bits equal the fetched buffer's length; read the envelope and raise an
error unless the buffer is empty afterwards. -/
def REnvelopeLink.readEnvelope {α : Type} (link : REnvelopeLink)
    (fetchData : Nat → Nat → ReadBuffer) (readEnv : Reader α) : Except RErr α := do
  let buffer := link.locator.getBuffer fetchData
  if link.locator.size ≠ link.length then .error .unimplemented
  else do
    let (lengthType, _) ← buffer.readU64LE
    let _typeID := lengthType % 65536
    let length := lengthType / 65536
    if length ≠ buffer.data.length then .error .corrupt
    else do
      let (envelope, b1) ← readEnv buffer
      if b1.data ≠ [] then .error .corrupt
      else .ok envelope

/-- Modelled from the spec: the header envelope class of
`rntuple/header.py` is not under `src/`.  `RNTuple.from_anchor` only uses
its trailing envelope checksum (the `checksum` attribute every envelope
carries, §4.6 step 7 of the spec). -/
structure HeaderEnvelopeS where
  checksum : Nat
  deriving Repr, DecidableEq

/-- Modelled from the spec: the footer envelope class of
`rntuple/footer.py` is not under `src/`.  `RNTuple.from_anchor` only uses
its `headerChecksum` payload field ("header-checksum (must equal the
header envelope's checksum)", §4.6). -/
structure FooterEnvelopeS where
  headerChecksum : Nat
  deriving Repr, DecidableEq

/-- Modelled from the spec: the page-list envelope class of
`rntuple/pagelist.py` is not under `src/`.  `RNTuple.from_anchor` only
uses its `headerChecksum` payload field ("header-checksum (must match)",
§4.6). -/
structure PageListEnvelopeS where
  headerChecksum : Nat
  deriving Repr, DecidableEq

/-- An `RNTuple` as constructed by `RNTuple.from_anchor` of
`rntuple/RNTuple.py`: the header, footer and page-list envelopes. -/
structure RNTupleS where
  headerEnvelope : HeaderEnvelopeS
  footerEnvelope : FooterEnvelopeS
  pagelistEnvelopes : List PageListEnvelopeS
  deriving Repr, DecidableEq

/-- The loop of `RNTuple.from_anchor` verifying the header checksum stored
in each page-list envelope, raising on the first mismatch. -/
def checkPagelists (headerChecksum : Nat) : List PageListEnvelopeS → Except RErr Unit
  | [] => .ok ()
  | pl :: rest =>
    if pl.headerChecksum ≠ headerChecksum then .error .corrupt
    else checkPagelists headerChecksum rest

/-- `RNTuple.from_anchor` of `rntuple/RNTuple.py`, with the anchor's
envelope getters (`anchor.get_header`, `anchor.get_footer`,
`footerEnvelope.get_pagelists`, which live in files not under `src/`)
abstracted as arguments: obtain the header and footer envelopes, raise
unless the footer's stored header checksum equals the header envelope's
checksum, obtain the page-list envelopes, and raise unless each stores the
same header checksum. -/
def RNTuple.fromAnchor (getHeader : Except RErr HeaderEnvelopeS)
    (getFooter : Except RErr FooterEnvelopeS)
    (getPagelists : FooterEnvelopeS → Except RErr (List PageListEnvelopeS)) :
    Except RErr RNTupleS := do
  let headerEnvelope ← getHeader
  let footerEnvelope ← getFooter
  if footerEnvelope.headerChecksum ≠ headerEnvelope.checksum then .error .corrupt
  else do
    let pagelistEnvelopes ← getPagelists footerEnvelope
    checkPagelists headerEnvelope.checksum pagelistEnvelopes
    .ok ⟨headerEnvelope, footerEnvelope, pagelistEnvelopes⟩

/-- The members of `ClusterSummary` of `bootstrap/RFrame.py`: the first
entry number and the packed 64-bit integer holding the entry count in its
56 least significant bits and the feature flag in its 8 most significant
bits. -/
structure ClusterSummaryS where
  fFirstEntryNumber : Nat
  fNEntriesAndFeatureFlag : Nat
  deriving Repr, DecidableEq

/-- The `fNEntries` property: the 56 least significant bits
(`& 0x00FFFFFFFFFFFFFF`). -/
def ClusterSummaryS.fNEntries (c : ClusterSummaryS) : Nat :=
  c.fNEntriesAndFeatureFlag % 72057594037927936

/-- The `fFeatureFlag` property: the 8 most significant bits
(`>> 56` then `& 0xFF`). -/
def ClusterSummaryS.fFeatureFlag (c : ClusterSummaryS) : Nat :=
  (c.fNEntriesAndFeatureFlag / 72057594037927936) % 256

/-- The generated `read_members` of the serializable `ClusterSummary`
record frame: two little-endian `u64` fields (`fFirstEntryNumber`,
`fNEntriesAndFeatureFlag`). -/
def ClusterSummary.readMembers : Reader ClusterSummaryS := fun buffer => do
  let (fFirstEntryNumber, b1) ← buffer.readU64LE
  let (fNEntriesAndFeatureFlag, b2) ← b1.readU64LE
  .ok (⟨fFirstEntryNumber, fNEntriesAndFeatureFlag⟩, b2)

/-- `ClusterSummary.read`: a record frame whose members are the two packed
64-bit integers.  The source performs no feature-flag check while reading. -/
def ClusterSummary.read (buffer : ReadBuffer) :
    Except RErr (RFrameData ClusterSummaryS × ReadBuffer) :=
  RecordFrame.read ClusterSummary.readMembers buffer

/-- The array produced by `np.frombuffer(data, dtype, count=n)` in
`container.py`: element count and the raw bytes consumed. -/
structure NpArrayS where
  count : Nat
  raw : List Nat
  deriving Repr, DecidableEq

/-- `_ArrayReader.__call__` of `container.py` (the reader built by
`BasicArray.build_reader`), for one field: `n` is the value of the earlier
size member, `itemsize` the numpy dtype's item size.  With `haspad` set,
one pad byte is consumed first: `0x00` yields an empty array (even if
`n > 0`); any byte other than `0x01` raises `Invalid`; `0x01` with `n = 0`
raises `Invalid`; otherwise `n * itemsize` bytes are consumed and give an
`n`-element array (a negative `n` makes `consume` raise `Invalid`). -/
def ArrayReader.call (itemsize : Nat) (haspad : Bool) (n : Int) (buffer : ReadBuffer) :
    Except RErr (NpArrayS × ReadBuffer) :=
  if haspad then do
    let (pad, b1) ← buffer.consume 1
    if pad = [0] then .ok (⟨0, []⟩, b1)
    else if pad ≠ [1] then .error .invalid
    else if n = 0 then .error .invalid
    else do
      let (data, b2) ← b1.consume (n * (itemsize : Int))
      .ok (⟨n.toNat, data⟩, b2)
  else do
    let (data, b1) ← buffer.consume (n * (itemsize : Int))
    .ok (⟨n.toNat, data⟩, b1)

/-- `TKey_header` of `bootstrap/TKey.py`: the fixed big-endian header
`">ihiIhh"` (`fNbytes`, `fVersion`, `fObjlen`, `fDatime`, `fKeylen`,
`fCycle`). -/
structure TKeyHeader where
  fNbytes : Int
  fVersion : Int
  fObjlen : Int
  fDatime : Nat
  fKeylen : Int
  fCycle : Int
  deriving Repr, DecidableEq

/-- The generated `read_members` of `TKey_header`: six big-endian fields of
formats `>i`, `>h`, `>i`, `>I`, `>h`, `>h` (18 bytes in total). -/
def TKeyHeader.read : Reader TKeyHeader := fun buffer => do
  let (fNbytes, b1) ← buffer.readI32BE
  let (fVersion, b2) ← b1.readI16BE
  let (fObjlen, b3) ← b2.readI32BE
  let (fDatime, b4) ← b3.readU32BE
  let (fKeylen, b5) ← b4.readI16BE
  let (fCycle, b6) ← b5.readI16BE
  .ok (⟨fNbytes, fVersion, fObjlen, fDatime, fKeylen, fCycle⟩, b6)

/-- Modelled from the spec: `bootstrap/TString.py` is not under `src/`.
Section 4.7 of the spec describes the tail of a TKey as "three
length-prefixed strings"; a TString is modelled as one length byte
followed by that many character bytes. -/
structure TStringS where
  fString : List Nat
  deriving Repr, DecidableEq

/-- Modelled from the spec: `TString.read` reads the length byte and then
that many bytes. -/
def TString.read : Reader TStringS := fun buffer => do
  let (n, b1) ← buffer.readU8
  let (chars, b2) ← b1.consume (n : Int)
  .ok (⟨chars⟩, b2)

/-- A `TKey` as stored by `bootstrap/TKey.py`: header, the two seek
fields, and the three strings. -/
structure TKeyS where
  header : TKeyHeader
  fSeekKey : Int
  fSeekPdir : Int
  fClassName : TStringS
  fName : TStringS
  fTitle : TStringS
  deriving Repr, DecidableEq

/-- `TKey.read_members` of `bootstrap/TKey.py`: read the header, then the
two seeks as `">ii"` when `fVersion < 1000` and as `">qq"` otherwise, then
the three strings; raise unless `fVersion % 1000` is 2 or 4, and unless
the number of bytes consumed equals `fKeylen` or `fKeylen + 4`. -/
def TKey.readMembers (buffer : ReadBuffer) : Except RErr (TKeyS × ReadBuffer) := do
  let startPosition := buffer.relpos
  let (header, b1) ← TKeyHeader.read buffer
  let (seeks, b2) ←
    (if header.fVersion < 1000 then do
      let (fSeekKey, c1) ← b1.readI32BE
      let (fSeekPdir, c2) ← c1.readI32BE
      .ok (((fSeekKey, fSeekPdir) : Int × Int), c2)
    else do
      let (fSeekKey, c1) ← b1.readI64BE
      let (fSeekPdir, c2) ← c1.readI64BE
      .ok ((fSeekKey, fSeekPdir), c2))
  let (fClassName, b3) ← TString.read b2
  let (fName, b4) ← TString.read b3
  let (fTitle, b5) ← TString.read b4
  if header.fVersion % 1000 ≠ 2 ∧ header.fVersion % 1000 ≠ 4 then .error .invalid
  else
    let keylen : Int := (b5.relpos : Int) - (startPosition : Int)
    if keylen ≠ header.fKeylen ∧ keylen ≠ header.fKeylen + 4 then .error .invalid
    else .ok (⟨header, seeks.1, seeks.2, fClassName, fName, fTitle⟩, b5)

/-- Modelled from the spec: `bootstrap/compression.py` is not under
`src/`.  Section 4.7 of the spec describes `RCompressed` as a
compressed-block header carrying the original (uncompressed) and
compressed sizes; only the declared uncompressed size
(`compressed.header.uncompressed_size()`) is needed by
`TKey.read_object`. -/
structure RCompressedS where
  uncompressedSize : Nat
  deriving Repr, DecidableEq

/-- `TKey.read_object` of `bootstrap/TKey.py`, with its collaborators
abstracted: `fetchData` fetches a byte range, `readCompressed` stands for
`RCompressed.read`, `decompress` for `compressed.decompress()` (the
spec-contracted decompressor, §6), and `readObj` for the object type's
`read`.  Fetch `fNbytes - fKeylen` bytes at `fSeekKey + fKeylen`; when the
buffer length differs from `fObjlen` read a compressed block, raise unless
its declared uncompressed size equals `fObjlen` and the buffer is drained,
and decode from a fresh buffer over the decompressed bytes with
`abspos = None` and `relpos = fKeylen`; in either case raise unless
nothing remains after decoding the object. -/
def TKey.readObject {Obj : Type} (key : TKeyS) (fetchData : Int → Int → ReadBuffer)
    (readCompressed : Reader RCompressedS) (decompress : RCompressedS → Except RErr (List Nat))
    (readObj : Reader Obj) : Except RErr Obj := do
  let buffer := fetchData (key.fSeekKey + key.header.fKeylen)
    (key.header.fNbytes - key.header.fKeylen)
  let buffer ←
    (if (buffer.data.length : Int) = key.header.fObjlen then .ok buffer
    else do
      let (compressed, rest) ← readCompressed buffer
      if (compressed.uncompressedSize : Int) ≠ key.header.fObjlen then .error .corrupt
      else if rest.data ≠ [] then .error .corrupt
      else do
        let out ← decompress compressed
        .ok (⟨out, none, key.header.fKeylen.toNat, []⟩ : ReadBuffer))
  let (obj, bAfter) ← readObj buffer
  if bAfter.data ≠ [] then .error .corrupt
  else .ok obj

theorem exceptBind_ok {ε α β : Type} {e : Except ε α} {f : α → Except ε β} {c : β} :
    (e >>= f) = .ok c ↔ ∃ a, e = .ok a ∧ f a = .ok c := by
  cases e with
  | ok a => simp [Bind.bind, Except.bind]
  | error err => simp [Bind.bind, Except.bind]

theorem advance_relpos (b : ReadBuffer) (k : Nat) : (b.advance k).relpos = b.relpos + k := rfl

theorem advance_data (b : ReadBuffer) (k : Nat) : (b.advance k).data = b.data.drop k := rfl

theorem advance_localRefs (b : ReadBuffer) (k : Nat) : (b.advance k).localRefs = b.localRefs := rfl

theorem advance_advance (b : ReadBuffer) (j k : Nat) :
    (b.advance j).advance k = b.advance (j + k) := by
  unfold ReadBuffer.advance
  cases h : b.abspos <;>
    simp [List.drop_drop, Nat.add_comm j k, Nat.add_assoc, h]

theorem readPrim_ok {α : Type} {n : Nat} {dec : List Nat → α} {b : ReadBuffer}
    {v : α} {b' : ReadBuffer} :
    b.readPrim n dec = .ok (v, b') ↔
      n ≤ b.data.length ∧ v = dec (b.data.take n) ∧ b' = b.advance n := by
  unfold ReadBuffer.readPrim
  split
  · next hlt =>
    constructor
    · intro h; cases h
    · rintro ⟨hle, -, -⟩; omega
  · next hlt =>
    rw [Except.ok.injEq, Prod.mk.injEq]
    constructor
    · rintro ⟨h1, h2⟩; exact ⟨by omega, h1.symm, h2.symm⟩
    · rintro ⟨-, h1, h2⟩; exact ⟨h1.symm, h2.symm⟩

theorem readPrim_eval {α : Type} {n : Nat} (dec : List Nat → α) (b : ReadBuffer)
    (h : n ≤ b.data.length) :
    b.readPrim n dec = .ok (dec (b.data.take n), b.advance n) := by
  unfold ReadBuffer.readPrim
  rw [if_neg (by omega)]

theorem consume_ok {b : ReadBuffer} {size : Int} {out : List Nat} {b' : ReadBuffer} :
    b.consume size = .ok (out, b') ↔
      0 ≤ size ∧ size.toNat ≤ b.data.length ∧
      out = b.data.take size.toNat ∧ b' = b.advance size.toNat := by
  unfold ReadBuffer.consume
  split
  · next hneg =>
    constructor
    · intro h; cases h
    · rintro ⟨h0, -⟩; omega
  · next hneg =>
    split
    · next hlen =>
      constructor
      · intro h; cases h
      · rintro ⟨-, hle, -⟩; omega
    · next hlen =>
      rw [Except.ok.injEq, Prod.mk.injEq]
      constructor
      · rintro ⟨h1, h2⟩; exact ⟨by omega, by omega, h1.symm, h2.symm⟩
      · rintro ⟨-, -, h1, h2⟩; exact ⟨h1.symm, h2.symm⟩

theorem advances_advance (b : ReadBuffer) {k : Nat} (h : k ≤ b.data.length) :
    Advances b (b.advance k) := ⟨k, h, rfl⟩

theorem advances_trans {a b c : ReadBuffer} (h1 : Advances a b) (h2 : Advances b c) :
    Advances a c := by
  obtain ⟨j, hj, rfl⟩ := h1
  obtain ⟨k, hk, rfl⟩ := h2
  refine ⟨j + k, ?_, advance_advance a j k⟩
  have : (a.advance j).data.length = a.data.length - j := by
    simp [ReadBuffer.advance]
  omega

theorem readerAdvances_readPrim {α : Type} (n : Nat) (dec : List Nat → α) :
    ReaderAdvances (ReadBuffer.readPrim n dec) := by
  intro b x b' h
  rw [readPrim_ok] at h
  exact h.2.2 ▸ advances_advance b h.1

theorem readerAdvances_readU64LE : ReaderAdvances ReadBuffer.readU64LE :=
  readerAdvances_readPrim 8 leNat

theorem readerAdvances_readU32LE : ReaderAdvances ReadBuffer.readU32LE :=
  readerAdvances_readPrim 4 leNat

theorem readItems_ok {α : Type} {readItem : Reader α} (hadv : ReaderAdvances readItem) :
    ∀ (n : Nat) (b : ReadBuffer) (xs : List α) (b' : ReadBuffer),
      readItems readItem n b = .ok (xs, b') → Advances b b' ∧ xs.length = n := by
  intro n
  induction n with
  | zero =>
    intro b xs b' h
    unfold readItems at h
    rw [Except.ok.injEq, Prod.mk.injEq] at h
    obtain ⟨h1, h2⟩ := h
    subst h1; subst h2
    exact ⟨⟨0, Nat.zero_le _, by cases b.abspos <;> simp [ReadBuffer.advance]⟩, rfl⟩
  | succ m ih =>
    intro b xs b' h
    unfold readItems at h
    rw [exceptBind_ok] at h
    obtain ⟨⟨x, b1⟩, hx, h⟩ := h
    rw [exceptBind_ok] at h
    obtain ⟨⟨ys, b2⟩, hys, h⟩ := h
    rw [Except.ok.injEq, Prod.mk.injEq] at h
    obtain ⟨h1, h2⟩ := h
    subst h1; subst h2
    obtain ⟨ha, hl⟩ := ih b1 ys b2 hys
    exact ⟨advances_trans (hadv b x b1 hx) ha, by simp [hl]⟩

/-- Claim C9: for every `ReadBuffer` `b` and every `k` with
`0 ≤ k ≤ len(b)`, the slice `b[k:]` has `relpos` equal to `b.relpos + k`,
length equal to `len(b) − k`, `abspos` equal to `b.abspos + k` when
`abspos` is not `None`, and the identical shared `local_refs` table;
consequently for `unpack(fmt)` and `consume(n)` the `relpos` of the
returned remainder buffer minus the `relpos` before the call equals
exactly the number of bytes consumed (`struct.calcsize(fmt)` and `n`). -/
theorem c9_readbuffer_position_arithmetic :
    (∀ (b : ReadBuffer) (k : Nat), k ≤ b.data.length →
      b.getitemFrom k = .ok (b.advance k) ∧
      (b.advance k).relpos = b.relpos + k ∧
      (b.advance k).data.length = b.data.length - k ∧
      (b.advance k).localRefs = b.localRefs ∧
      ∀ a, b.abspos = some a → (b.advance k).abspos = some (a + k)) ∧
    (∀ (b : ReadBuffer) (f : SFmt) (vals : List PrimVal) (b' : ReadBuffer),
      b.unpack f = .ok (vals, b') → b'.relpos = b.relpos + f.calcsize) ∧
    (∀ (b : ReadBuffer) (n : Int) (out : List Nat) (b' : ReadBuffer),
      b.consume n = .ok (out, b') → (b'.relpos : Int) = (b.relpos : Int) + n) := by
  refine ⟨?_, ?_, ?_⟩
  · intro b k hk
    refine ⟨?_, rfl, by simp [ReadBuffer.advance], rfl, ?_⟩
    · unfold ReadBuffer.getitemFrom
      rw [if_neg (by omega)]
    · intro a ha
      simp [ReadBuffer.advance, ha]
  · intro b f vals b' h
    unfold ReadBuffer.unpack at h
    split at h
    · cases h
    · rw [Except.ok.injEq, Prod.mk.injEq] at h
      rw [← h.2]
      rfl
  · intro b n out b' h
    rw [consume_ok] at h
    obtain ⟨h0, -, -, rfl⟩ := h
    rw [advance_relpos]
    omega

/-- Witness for C9 at concrete inputs: a slice of a 3-byte buffer at 2, an
unpack of the format `"<Hb"` (3 bytes), and a consume of 1 byte. -/
theorem c9_witness :
    ((⟨[1, 2, 3], some 5, 10, []⟩ : ReadBuffer).getitemFrom 2 =
        .ok ((⟨[1, 2, 3], some 5, 10, []⟩ : ReadBuffer).advance 2) ∧
      ((⟨[1, 2, 3], some 5, 10, []⟩ : ReadBuffer).advance 2).relpos = 10 + 2 ∧
      ((⟨[1, 2, 3], some 5, 10, []⟩ : ReadBuffer).advance 2).data.length = 3 - 2 ∧
      ((⟨[1, 2, 3], some 5, 10, []⟩ : ReadBuffer).advance 2).localRefs = [] ∧
      (∀ a, (⟨[1, 2, 3], some 5, 10, []⟩ : ReadBuffer).abspos = some a →
        ((⟨[1, 2, 3], some 5, 10, []⟩ : ReadBuffer).advance 2).abspos = some (a + 2))) ∧
    ((⟨[1, 2, 3, 4], none, 7, []⟩ : ReadBuffer).advance 3).relpos =
      7 + SFmt.calcsize ⟨true, [.u16, .i8]⟩ ∧
    (((⟨[9], none, 2, []⟩ : ReadBuffer).advance 1).relpos : Int) = (2 : Nat) + (1 : Int) :=
  ⟨c9_readbuffer_position_arithmetic.1 ⟨[1, 2, 3], some 5, 10, []⟩ 2 (by decide),
    c9_readbuffer_position_arithmetic.2.1 ⟨[1, 2, 3, 4], none, 7, []⟩ ⟨true, [.u16, .i8]⟩
      [.uns 513, .sgn 3] (((⟨[1, 2, 3, 4], none, 7, []⟩ : ReadBuffer)).advance 3) (by decide),
    c9_readbuffer_position_arithmetic.2.2 ⟨[9], none, 2, []⟩ 1 [9]
      ((⟨[9], none, 2, []⟩ : ReadBuffer).advance 1) (by decide)⟩

theorem exceptBind_pureArg {ε α β : Type} (a : α) (f : α → Except ε β) :
    ((Except.ok a : Except ε α) >>= f) = f a := rfl

theorem exceptBind_errArg {ε α β : Type} (e : ε) (f : α → Except ε β) :
    ((Except.error e : Except ε α) >>= f) = .error e := rfl

theorem checkPagelists_ok_iff (chk : Nat) (pls : List PageListEnvelopeS) :
    checkPagelists chk pls = .ok () ↔ ∀ pl ∈ pls, pl.headerChecksum = chk := by
  induction pls with
  | nil => simp [checkPagelists]
  | cons p rest ih =>
    unfold checkPagelists
    split
    · next hne => simp [hne]
    · next hne =>
      push_neg at hne
      simp [hne, ih]

theorem checkPagelists_error (chk : Nat) (pls : List PageListEnvelopeS)
    (h : ∃ pl ∈ pls, pl.headerChecksum ≠ chk) : checkPagelists chk pls = .error .corrupt := by
  induction pls with
  | nil => simp at h
  | cons p rest ih =>
    unfold checkPagelists
    split
    · rfl
    · next hne =>
      push_neg at hne
      refine ih ?_
      obtain ⟨pl, hmem, hplne⟩ := h
      rcases List.mem_cons.mp hmem with hmem | hmem
      · subst hmem; exact absurd hne hplne
      · exact ⟨pl, hmem, hplne⟩

/-- Claim C1: for every anchor and fetch function, `RNTuple.from_anchor`
raises an error if the footer envelope's `headerChecksum` differs from the
header envelope's trailing checksum, or if any page-list envelope's
`headerChecksum` differs from the header envelope's checksum; when it
returns an `RNTuple`, `footer.headerChecksum` equals `header.checksum` and
every page-list's `headerChecksum` equals `header.checksum` (raises iff
some check fails, returns iff all hold). -/
theorem c1_from_anchor_checksums
    (h : HeaderEnvelopeS) (f : FooterEnvelopeS)
    (getPagelists : FooterEnvelopeS → Except RErr (List PageListEnvelopeS))
    (pls : List PageListEnvelopeS) (hpl : getPagelists f = .ok pls) :
    (RNTuple.fromAnchor (.ok h) (.ok f) getPagelists = .ok ⟨h, f, pls⟩ ↔
      (f.headerChecksum = h.checksum ∧ ∀ pl ∈ pls, pl.headerChecksum = h.checksum)) ∧
    ((f.headerChecksum ≠ h.checksum ∨ ∃ pl ∈ pls, pl.headerChecksum ≠ h.checksum) →
      RNTuple.fromAnchor (.ok h) (.ok f) getPagelists = .error .corrupt) := by
  unfold RNTuple.fromAnchor
  rw [exceptBind_pureArg, exceptBind_pureArg]
  by_cases hfc : f.headerChecksum = h.checksum
  · rw [if_neg (by simpa using hfc), hpl, exceptBind_pureArg]
    by_cases hall : ∀ pl ∈ pls, pl.headerChecksum = h.checksum
    · rw [(checkPagelists_ok_iff h.checksum pls).2 hall, exceptBind_pureArg]
      constructor
      · exact ⟨fun _ => ⟨hfc, hall⟩, fun _ => rfl⟩
      · rintro (hne | ⟨pl, hmem, hplne⟩)
        · exact absurd hfc hne
        · exact absurd (hall pl hmem) hplne
    · push_neg at hall
      rw [checkPagelists_error h.checksum pls hall, exceptBind_errArg]
      constructor
      · constructor
        · intro hh; cases hh
        · rintro ⟨-, hall2⟩
          obtain ⟨pl, hmem, hplne⟩ := hall
          exact absurd (hall2 pl hmem) hplne
      · intro _; rfl
  · rw [if_pos (by simpa using hfc)]
    constructor
    · constructor
      · intro hh; cases hh
      · rintro ⟨hc, -⟩; exact absurd hc hfc
    · intro _; rfl

/-- Witness for C1 at concrete envelopes: header checksum 5, matching
footer and one matching page list. -/
theorem c1_witness :
    (RNTuple.fromAnchor (.ok ⟨5⟩) (.ok ⟨5⟩) (fun _ => .ok [⟨5⟩]) =
        .ok ⟨⟨5⟩, ⟨5⟩, [⟨5⟩]⟩ ↔
      ((⟨5⟩ : FooterEnvelopeS).headerChecksum = (⟨5⟩ : HeaderEnvelopeS).checksum ∧
        ∀ pl ∈ [(⟨5⟩ : PageListEnvelopeS)],
          pl.headerChecksum = (⟨5⟩ : HeaderEnvelopeS).checksum)) ∧
    (((⟨5⟩ : FooterEnvelopeS).headerChecksum ≠ (⟨5⟩ : HeaderEnvelopeS).checksum ∨
        ∃ pl ∈ [(⟨5⟩ : PageListEnvelopeS)],
          pl.headerChecksum ≠ (⟨5⟩ : HeaderEnvelopeS).checksum) →
      RNTuple.fromAnchor (.ok ⟨5⟩) (.ok ⟨5⟩) (fun _ => .ok [⟨5⟩]) = .error .corrupt) :=
  c1_from_anchor_checksums ⟨5⟩ ⟨5⟩ (fun _ => .ok [⟨5⟩]) [⟨5⟩] rfl

theorem consume_one (b : ReadBuffer) (x : Nat) (t : List Nat) (hd : b.data = x :: t) :
    b.consume 1 = .ok ([x], b.advance 1) := by
  unfold ReadBuffer.consume
  rw [if_neg (by omega), if_neg (by rw [hd]; simp)]
  rw [hd]
  rfl

/-- Claim C7: for every `BasicArray` field with `has_pad = true` and every
declared size `n` taken from the earlier size member: the read produces a
zero-length array if and only if the pad byte is `0x00`, and every other
combination of pad byte and size that does not produce a non-empty
`n`-element array (pad byte outside 0x00/0x01, pad byte `0x01` with
`n = 0`, or a negative size) raises an `Invalid` error. -/
theorem c7_basicarray_pad (itemsize : Nat) (n : Int) (b : ReadBuffer) (hsz : 0 < itemsize) :
    (∀ (arr : NpArrayS) (b' : ReadBuffer),
      ArrayReader.call itemsize true n b = .ok (arr, b') →
        ((arr.count = 0 ↔ b.data.take 1 = [0]) ∧
          (b.data.take 1 = [1] → 0 < n ∧ (arr.count : Int) = n))) ∧
    (∀ t, b.data = 0 :: t →
      ArrayReader.call itemsize true n b = .ok (⟨0, []⟩, b.advance 1)) ∧
    (∀ x t, b.data = x :: t → x ≠ 0 → x ≠ 1 →
      ArrayReader.call itemsize true n b = .error .invalid) ∧
    (∀ t, b.data = 1 :: t → n = 0 →
      ArrayReader.call itemsize true n b = .error .invalid) ∧
    (∀ t, b.data = 1 :: t → n < 0 →
      ArrayReader.call itemsize true n b = .error .invalid) := by
  refine ⟨?_, ?_, ?_, ?_, ?_⟩
  · intro arr b' hcall
    unfold ArrayReader.call at hcall
    rw [if_pos rfl, exceptBind_ok] at hcall
    obtain ⟨⟨pad, b1⟩, hcons, hrest⟩ := hcall
    rw [consume_ok] at hcons
    obtain ⟨-, hlen1, hpad, -⟩ := hcons
    rw [show (1 : Int).toNat = 1 from rfl] at hpad
    simp only at hrest
    split at hrest
    · next hp0 =>
      rw [Except.ok.injEq, Prod.mk.injEq] at hrest
      obtain ⟨harr, -⟩ := hrest
      subst harr
      refine ⟨by simp [hpad ▸ hp0], ?_⟩
      intro h1
      rw [h1] at hpad
      rw [hpad] at hp0
      cases hp0
    · next hp0 =>
      split at hrest
      · cases hrest
      · next hp1 =>
        rw [not_not] at hp1
        split at hrest
        · cases hrest
        · next hn0 =>
          rw [exceptBind_ok] at hrest
          obtain ⟨⟨data, b2⟩, hcons2, hok⟩ := hrest
          simp only at hok
          rw [consume_ok] at hcons2
          obtain ⟨hnn, -, -, -⟩ := hcons2
          rw [Except.ok.injEq, Prod.mk.injEq] at hok
          obtain ⟨harr, -⟩ := hok
          subst harr
          have hnpos : 0 < n := by
            rcases lt_trichotomy n 0 with hlt | hzz | hgt
            · exfalso
              have : n * (itemsize : Int) < 0 :=
                mul_neg_of_neg_of_pos hlt (by exact_mod_cast hsz)
              omega
            · exact absurd hzz hn0
            · exact hgt
          constructor
          · constructor
            · intro hc
              exfalso
              simp only [NpArrayS.count] at hc
              omega
            · intro htake
              rw [← hpad] at htake
              exact absurd htake hp0
          · intro _
            exact ⟨hnpos, by simp only [NpArrayS.count]; omega⟩
  · intro t hdata
    unfold ArrayReader.call
    rw [if_pos rfl, consume_one b 0 t hdata, exceptBind_pureArg]
    simp
  · intro x t hdata hx0 hx1
    unfold ArrayReader.call
    rw [if_pos rfl, consume_one b x t hdata, exceptBind_pureArg]
    simp [hx0, hx1]
  · intro t hdata hn
    unfold ArrayReader.call
    rw [if_pos rfl, consume_one b 1 t hdata, exceptBind_pureArg]
    simp [hn]
  · intro t hdata hn
    unfold ArrayReader.call
    rw [if_pos rfl, consume_one b 1 t hdata, exceptBind_pureArg]
    have hneg : (b.advance 1).consume (n * (itemsize : Int)) = .error .invalid := by
      unfold ReadBuffer.consume
      rw [if_pos (mul_neg_of_neg_of_pos hn (by exact_mod_cast hsz))]
    simp [show ¬(n = 0) from by omega, hneg]
    rfl

/-- Witness for C7: with item size 1, a successful read of two elements
behind pad byte `0x01`, and the `Invalid` rejection of pad byte `0x01`
with declared size 0. -/
theorem c7_witness :
    (((⟨2, [5, 6]⟩ : NpArrayS).count = 0 ↔ ([1, 5, 6] : List Nat).take 1 = [0]) ∧
      (([1, 5, 6] : List Nat).take 1 = [1] →
        (0 : Int) < 2 ∧ (((⟨2, [5, 6]⟩ : NpArrayS).count : Int) = 2))) ∧
    ArrayReader.call 1 true 0 ⟨[1], none, 0, []⟩ = .error .invalid :=
  ⟨by
    have h := (c7_basicarray_pad 1 2 ⟨[1, 5, 6], none, 0, []⟩ (by decide)).1
      ⟨2, [5, 6]⟩ ⟨[], none, 3, []⟩ (by decide)
    exact h,
   (c7_basicarray_pad 1 0 ⟨[1], none, 0, []⟩ (by decide)).2.2.2.1 [] rfl rfl⟩

/-- Claim C10: `TKey.read` validates its own header beyond what the spec
states: it succeeds only when `header.fVersion` modulo 1000 is 2 or 4 and
when the number of bytes actually consumed for the key record equals
`header.fKeylen` or `header.fKeylen + 4`; any other version or key-length
mismatch raises an error, so every successfully decoded TKey has a
consumed length consistent (within +4 bytes) with its declared `fKeylen`. -/
theorem c10_tkey_version_and_keylen (b : ReadBuffer) (k : TKeyS) (b' : ReadBuffer)
    (h : TKey.readMembers b = .ok (k, b')) :
    (k.header.fVersion % 1000 = 2 ∨ k.header.fVersion % 1000 = 4) ∧
    ((b'.relpos : Int) - (b.relpos : Int) = k.header.fKeylen ∨
      (b'.relpos : Int) - (b.relpos : Int) = k.header.fKeylen + 4) := by
  unfold TKey.readMembers at h
  rw [exceptBind_ok] at h
  obtain ⟨⟨header, b1⟩, hh, h⟩ := h
  simp only at h
  rw [exceptBind_ok] at h
  obtain ⟨⟨seeks, b2⟩, hs, h⟩ := h
  simp only at h
  rw [exceptBind_ok] at h
  obtain ⟨⟨cn, b3⟩, hc, h⟩ := h
  simp only at h
  rw [exceptBind_ok] at h
  obtain ⟨⟨nm, b4⟩, hn2, h⟩ := h
  simp only at h
  rw [exceptBind_ok] at h
  obtain ⟨⟨ti, b5⟩, ht, h⟩ := h
  simp only at h
  split at h
  · cases h
  · next hv =>
    split at h
    · cases h
    · next hk =>
      rw [Except.ok.injEq, Prod.mk.injEq] at h
      obtain ⟨hkk, hb⟩ := h
      subst hkk
      subst hb
      constructor
      · rcases not_and_or.mp hv with h2 | h4
        · exact Or.inl (not_not.mp h2)
        · exact Or.inr (not_not.mp h4)
      · rcases not_and_or.mp hk with h2 | h4
        · exact Or.inl (not_not.mp h2)
        · exact Or.inr (not_not.mp h4)

/-- Witness for C10: a 29-byte key record with version 4, 32-bit seeks,
three empty strings and a declared `fKeylen` of 29. -/
theorem c10_witness :
    ((4 : Int) % 1000 = 2 ∨ (4 : Int) % 1000 = 4) ∧
    (((29 : Nat) : Int) - ((0 : Nat) : Int) = (29 : Int) ∨
      ((29 : Nat) : Int) - ((0 : Nat) : Int) = (29 : Int) + 4) :=
  c10_tkey_version_and_keylen
    ⟨[0, 0, 0, 100, 0, 4, 0, 0, 0, 10, 0, 0, 0, 0, 0, 29, 0, 1,
      0, 0, 0, 0, 0, 0, 0, 0, 0, 0, 0], none, 0, []⟩
    ⟨⟨100, 4, 10, 0, 29, 1⟩, 0, 0, ⟨[]⟩, ⟨[]⟩, ⟨[]⟩⟩ ⟨[], none, 29, []⟩ (by decide)

/-- Claim C8 fails on the code: reading a `ClusterSummary` record frame
whose packed `fNEntriesAndFeatureFlag` has bit 56 set (feature-flag bit 0,
sharded clusters) succeeds and returns the frame instead of aborting with
an `UnknownFeature` error; no code path of `bootstrap/RFrame.py` inspects
`fFeatureFlag` during reading, although the class's own notes say readers
should abort when this flag is set.  The input is the 24-byte record frame
with size 24, first entry number 0, and packed value `22 + 2^56`. -/
theorem c8_cluster_summary_reads_sharded_flag :
    ClusterSummary.read
      ⟨[24, 0, 0, 0, 0, 0, 0, 0, 0, 0, 0, 0, 0, 0, 0, 0,
        22, 0, 0, 0, 0, 0, 0, 1], none, 0, []⟩ =
      .ok (⟨24, ⟨0, 72057594037927958⟩, []⟩, ⟨[], none, 24, []⟩) ∧
    (⟨0, 72057594037927958⟩ : ClusterSummaryS).fFeatureFlag = 1 ∧
    (⟨0, 72057594037927958⟩ : ClusterSummaryS).fNEntries = 22 := by
  refine ⟨by decide, by decide, by decide⟩

/-- Claim C2: for every frame read that succeeds (`RecordFrame.read`,
`ListFrame.read_as`, or `RFrame.read_as` dispatching on the sign of the
leading little-endian signed 64-bit size), the total bytes consumed from
the buffer, including the unknown trailing bytes stored in `_unknown`,
equals the absolute value of the declared size; a declared size of exactly
zero raises an `Invalid` error; a negative size reads an unsigned 32-bit
item count followed by exactly that many items. -/
theorem c2_frame_bytes_consumed :
    (∀ (α : Type) (readMembers : Reader α) (b : ReadBuffer) (out : RFrameData α)
        (b' : ReadBuffer), ReaderAdvances readMembers →
      RecordFrame.read readMembers b = .ok (out, b') →
        b'.relpos = b.relpos + out.fSize ∧
        b.data.length = b'.data.length + out.fSize ∧
        0 < toSigned 64 (leNat (b.data.take 8)) ∧
        (toSigned 64 (leNat (b.data.take 8))).toNat = out.fSize ∧
        ∃ k, readMembers (b.advance 8) = .ok (out.payload, b.advance (8 + k)) ∧
          8 + k + out.unknown.length = out.fSize) ∧
    (∀ (α β : Type) (readItem : Reader α) (readMembers : Reader β) (b : ReadBuffer)
        (out : ListFrameData α β) (b' : ReadBuffer),
      ReaderAdvances readItem → ReaderAdvances readMembers →
      ListFrame.readAs readItem readMembers b = .ok (out, b') →
        b'.relpos = b.relpos + out.fSize ∧
        b.data.length = b'.data.length + out.fSize ∧
        toSigned 64 (leNat (b.data.take 8)) < 0 ∧
        (toSigned 64 (leNat (b.data.take 8))).natAbs = out.fSize ∧
        out.items.length = leNat ((b.data.drop 8).take 4)) ∧
    (∀ (α β : Type) (readItem : Reader α) (readMembers : Reader β) (b : ReadBuffer),
      8 ≤ b.data.length → toSigned 64 (leNat (b.data.take 8)) = 0 →
      RFrame.readAs readItem readMembers b = .error .invalid) := by
  refine ⟨?_, ?_, ?_⟩
  · intro α readMembers b out b' hadv h
    unfold RecordFrame.read at h
    rw [exceptBind_ok] at h
    obtain ⟨⟨fSize, b1⟩, h1, h⟩ := h
    simp only at h
    unfold ReadBuffer.readI64LE at h1
    rw [readPrim_ok] at h1
    obtain ⟨hlen8, hv, hb1⟩ := h1
    split at h
    · cases h
    · next hpos =>
      rw [exceptBind_ok] at h
      obtain ⟨⟨args, b2⟩, hm, h⟩ := h
      simp only at h
      rw [exceptBind_ok] at h
      obtain ⟨⟨unk, b3⟩, hcons, h⟩ := h
      simp only at h
      rw [Except.ok.injEq, Prod.mk.injEq] at h
      obtain ⟨hout, hb'⟩ := h
      subst hb1
      obtain ⟨k, hk, hb2⟩ := hadv _ _ _ hm
      subst hb2
      rw [advance_advance] at hm hcons
      rw [consume_ok] at hcons
      obtain ⟨hn0, hnle, hunk, hb3⟩ := hcons
      subst hb3
      rw [advance_advance] at hb'
      subst hb'
      subst hout
      have hlenadv : (b.advance 8).data.length = b.data.length - 8 := by
        simp [ReadBuffer.advance]
      rw [hlenadv] at hk
      simp only [ReadBuffer.advance, List.length_drop, List.length_take] at hn0 hnle hunk
      have hunklen : unk.length =
          (fSize - ((b.relpos + (8 + k) : Nat) : Int) + (b.relpos : Int)).toNat := by
        rw [hunk, List.length_take]
        simp only [ReadBuffer.advance, List.length_drop]
        push_cast
        omega
      refine ⟨?_, ?_, by rw [← hv]; omega, by rw [← hv], ?_⟩
      · simp only [ReadBuffer.advance, List.length_drop]
        omega
      · simp only [ReadBuffer.advance, List.length_drop]
        omega
      · refine ⟨k, by simpa using hm, ?_⟩
        simp only
        omega
  · intro α β readItem readMembers b out b' hri hrm h
    unfold ListFrame.readAs at h
    rw [exceptBind_ok] at h
    obtain ⟨⟨fSize, b1⟩, h1, h⟩ := h
    simp only at h
    unfold ReadBuffer.readI64LE at h1
    rw [readPrim_ok] at h1
    obtain ⟨hlen8, hv, hb1⟩ := h1
    split at h
    · cases h
    · next hneg =>
      rw [exceptBind_ok] at h
      obtain ⟨⟨nItems, b2⟩, h2, h⟩ := h
      simp only at h
      unfold ReadBuffer.readU32LE at h2
      rw [readPrim_ok] at h2
      obtain ⟨hlen4, hnv, hb2⟩ := h2
      rw [exceptBind_ok] at h
      obtain ⟨⟨items, b3⟩, h3, h⟩ := h
      simp only at h
      rw [exceptBind_ok] at h
      obtain ⟨⟨extra, b4⟩, h4, h⟩ := h
      simp only at h
      rw [exceptBind_ok] at h
      obtain ⟨⟨unk, b5⟩, h5, h⟩ := h
      simp only at h
      rw [Except.ok.injEq, Prod.mk.injEq] at h
      obtain ⟨hout, hb'⟩ := h
      subst hb1
      subst hb2
      rw [advance_advance] at h3
      obtain ⟨⟨j, hj, hb3⟩, hilen⟩ := readItems_ok hri nItems _ items b3 h3
      subst hb3
      rw [advance_advance] at h4
      obtain ⟨k, hk, hb4⟩ := hrm _ _ _ h4
      subst hb4
      rw [advance_advance] at h5
      rw [consume_ok] at h5
      obtain ⟨hn0, hnle, hunk, hb5⟩ := h5
      subst hb5
      rw [advance_advance] at hb'
      subst hb'
      subst hout
      simp only [ReadBuffer.advance, List.length_drop, List.length_take]
        at hj hk hn0 hnle hunk hlen4
      refine ⟨?_, ?_, by rw [← hv]; omega, by rw [← hv], ?_⟩
      · simp only [ReadBuffer.advance, List.length_drop]
        omega
      · simp only [ReadBuffer.advance, List.length_drop]
        omega
      · simp only
        rw [hilen, hnv]
        rfl
  · intro α β readItem readMembers b hlen hzero
    unfold RFrame.readAs
    rw [show b.readI64LE = .ok (toSigned 64 (leNat (b.data.take 8)), b.advance 8) from
      readPrim_eval _ b hlen]
    rw [exceptBind_pureArg]
    simp only
    rw [hzero]
    simp

/-- Witness for C2: a 12-byte record frame with a `u32` payload, a 20-byte
list frame (declared size −20) holding one `u32` item and a `u32` extra
member, and the `Invalid` rejection of a zero size. -/
theorem c2_witness :
    ((⟨[], none, 12, []⟩ : ReadBuffer).relpos =
      (⟨[12, 0, 0, 0, 0, 0, 0, 0, 7, 0, 0, 0], none, 0, []⟩ : ReadBuffer).relpos +
        (⟨12, 7, []⟩ : RFrameData Nat).fSize) ∧
    ((⟨[12, 0, 0, 0, 0, 0, 0, 0, 7, 0, 0, 0], none, 0, []⟩ : ReadBuffer).data.length =
      (⟨[], none, 12, []⟩ : ReadBuffer).data.length + (⟨12, 7, []⟩ : RFrameData Nat).fSize) ∧
    ((⟨[], none, 20, []⟩ : ReadBuffer).relpos =
      (⟨[236, 255, 255, 255, 255, 255, 255, 255, 1, 0, 0, 0, 7, 0, 0, 0, 9, 0, 0, 0],
          none, 0, []⟩ : ReadBuffer).relpos +
        (⟨20, [7], 9, []⟩ : ListFrameData Nat Nat).fSize) ∧
    ((⟨20, [7], 9, []⟩ : ListFrameData Nat Nat).items.length =
      leNat ((([236, 255, 255, 255, 255, 255, 255, 255, 1, 0, 0, 0, 7, 0, 0, 0, 9, 0, 0, 0] :
        List Nat).drop 8).take 4)) ∧
    RFrame.readAs ReadBuffer.readU32LE ReadBuffer.readU32LE
      (⟨[0, 0, 0, 0, 0, 0, 0, 0], none, 0, []⟩ : ReadBuffer) = .error .invalid :=
  ⟨(c2_frame_bytes_consumed.1 Nat ReadBuffer.readU32LE
      ⟨[12, 0, 0, 0, 0, 0, 0, 0, 7, 0, 0, 0], none, 0, []⟩ ⟨12, 7, []⟩ ⟨[], none, 12, []⟩
      readerAdvances_readU32LE (by decide)).1,
    (c2_frame_bytes_consumed.1 Nat ReadBuffer.readU32LE
      ⟨[12, 0, 0, 0, 0, 0, 0, 0, 7, 0, 0, 0], none, 0, []⟩ ⟨12, 7, []⟩ ⟨[], none, 12, []⟩
      readerAdvances_readU32LE (by decide)).2.1,
    (c2_frame_bytes_consumed.2.1 Nat Nat ReadBuffer.readU32LE ReadBuffer.readU32LE
      ⟨[236, 255, 255, 255, 255, 255, 255, 255, 1, 0, 0, 0, 7, 0, 0, 0, 9, 0, 0, 0],
        none, 0, []⟩ ⟨20, [7], 9, []⟩ ⟨[], none, 20, []⟩
      readerAdvances_readU32LE readerAdvances_readU32LE (by decide)).1,
    (c2_frame_bytes_consumed.2.1 Nat Nat ReadBuffer.readU32LE ReadBuffer.readU32LE
      ⟨[236, 255, 255, 255, 255, 255, 255, 255, 1, 0, 0, 0, 7, 0, 0, 0, 9, 0, 0, 0],
        none, 0, []⟩ ⟨20, [7], 9, []⟩ ⟨[], none, 20, []⟩
      readerAdvances_readU32LE readerAdvances_readU32LE (by decide)).2.2.2.2,
    c2_frame_bytes_consumed.2.2 Nat Nat ReadBuffer.readU32LE ReadBuffer.readU32LE
      ⟨[0, 0, 0, 0, 0, 0, 0, 0], none, 0, []⟩ (by decide) (by decide)⟩

/-- Claim C3: for every buffer on which `REnvelope.read` succeeds, the
declared length (the 48 most significant bits of the leading little-endian
`u64`) minus 8 equals the buffer length remaining after that `u64` was
consumed (equivalently, the declared length equals the whole buffer
length), otherwise a `Corrupt` error is raised; and the bytes consumed
from the start of the envelope up to (but not including) the trailing
8-byte checksum, including the opaque unknown-tail bytes, equal the
declared length minus 8. -/
theorem c3_envelope_size_invariant :
    (∀ (α : Type) (readMembers : Reader α) (b : ReadBuffer) (env : REnvelopeData α)
        (b' : ReadBuffer),
      REnvelope.read readMembers b = .ok (env, b') →
        env.length = b.data.length ∧
        8 ≤ env.length ∧
        ∃ args bm, readMembers (b.advance 8) = .ok (args, bm) ∧
          ((bm.relpos : Int) + env.unknown.length) - (b.relpos : Int) = (env.length : Int) - 8 ∧
          b'.relpos = b.relpos + env.length) ∧
    (∀ (α : Type) (readMembers : Reader α) (b : ReadBuffer),
      8 ≤ b.data.length →
      ((leNat (b.data.take 8) / 65536 : Nat) : Int) - 8 ≠ (((b.advance 8).data.length : Nat) : Int) →
      REnvelope.read readMembers b = .error .corrupt) := by
  constructor
  · intro α readMembers b env b' h
    unfold REnvelope.read at h
    rw [exceptBind_ok] at h
    obtain ⟨⟨lengthType, b1⟩, h1, h⟩ := h
    simp only at h
    unfold ReadBuffer.readU64LE at h1
    rw [readPrim_ok] at h1
    obtain ⟨hlen8, hv, hb1⟩ := h1
    split at h
    · cases h
    · next hlencheck =>
      rw [not_not] at hlencheck
      rw [exceptBind_ok] at h
      obtain ⟨⟨args, b2⟩, hm, h⟩ := h
      simp only at h
      rw [exceptBind_ok] at h
      obtain ⟨⟨unk, b3⟩, hcons, h⟩ := h
      simp only at h
      rw [exceptBind_ok] at h
      obtain ⟨⟨checksum, b4⟩, hck, h⟩ := h
      simp only at h
      rw [Except.ok.injEq, Prod.mk.injEq] at h
      obtain ⟨henv, hb'⟩ := h
      subst hb1
      rw [consume_ok] at hcons
      obtain ⟨hn0, hnle, hunk, hb3⟩ := hcons
      subst hb3
      unfold ReadBuffer.readU64LE at hck
      rw [readPrim_ok] at hck
      obtain ⟨hck8, hckv, hb4⟩ := hck
      subst hb4
      subst hb'
      subst henv
      have hlenadv : (b.advance 8).data.length = b.data.length - 8 := by
        simp [ReadBuffer.advance]
      rw [hlenadv] at hlencheck
      have hunklen : unk.length =
          (↑lengthType / 65536 - ((b2.relpos : Int) - (b.relpos : Int)) - 8).toNat := by
        rw [hunk, List.length_take]
        omega
      refine ⟨by simp only; omega, by simp only; omega, args, b2, hm, ?_, ?_⟩
      · simp only
        omega
      · simp only [ReadBuffer.advance]
        omega
  · intro α readMembers b hlen hne
    unfold REnvelope.read
    rw [show b.readU64LE = .ok (leNat (b.data.take 8), b.advance 8) from
      readPrim_eval _ b hlen]
    rw [exceptBind_pureArg]
    simp only
    rw [if_pos hne]

/-- Witness for C3: a 16-byte envelope (type 2, declared length 16, empty
payload, checksum 1) read with a payload reader that consumes nothing, and
the `Corrupt` rejection of a buffer whose declared length 16 exceeds its
actual 8 bytes. -/
theorem c3_witness :
    ((⟨2, 16, 1, 0, []⟩ : REnvelopeData Nat).length =
      (⟨[2, 0, 16, 0, 0, 0, 0, 0, 1, 0, 0, 0, 0, 0, 0, 0], none, 0, []⟩ : ReadBuffer).data.length ∧
      8 ≤ (⟨2, 16, 1, 0, []⟩ : REnvelopeData Nat).length ∧
      ∃ args bm,
        (fun bb => .ok (0, bb) : Reader Nat)
          ((⟨[2, 0, 16, 0, 0, 0, 0, 0, 1, 0, 0, 0, 0, 0, 0, 0], none, 0, []⟩ :
            ReadBuffer).advance 8) = .ok (args, bm) ∧
        ((bm.relpos : Int) + (⟨2, 16, 1, 0, []⟩ : REnvelopeData Nat).unknown.length) -
          (((⟨[2, 0, 16, 0, 0, 0, 0, 0, 1, 0, 0, 0, 0, 0, 0, 0], none, 0, []⟩ :
            ReadBuffer).relpos : Int)) =
          (((⟨2, 16, 1, 0, []⟩ : REnvelopeData Nat).length : Int)) - 8 ∧
        (⟨[], none, 16, []⟩ : ReadBuffer).relpos =
          (⟨[2, 0, 16, 0, 0, 0, 0, 0, 1, 0, 0, 0, 0, 0, 0, 0], none, 0, []⟩ :
            ReadBuffer).relpos + (⟨2, 16, 1, 0, []⟩ : REnvelopeData Nat).length) ∧
    REnvelope.read (fun bb => .ok (0, bb) : Reader Nat)
      ⟨[2, 0, 16, 0, 0, 0, 0, 0], none, 0, []⟩ = .error .corrupt :=
  ⟨c3_envelope_size_invariant.1 Nat (fun bb => .ok (0, bb))
      ⟨[2, 0, 16, 0, 0, 0, 0, 0, 1, 0, 0, 0, 0, 0, 0, 0], none, 0, []⟩
      ⟨2, 16, 1, 0, []⟩ ⟨[], none, 16, []⟩ (by decide),
    c3_envelope_size_invariant.2 Nat (fun bb => .ok (0, bb))
      ⟨[2, 0, 16, 0, 0, 0, 0, 0], none, 0, []⟩ (by decide) (by decide)⟩

/-- Claim C4: for every envelope link, `read_envelope` raises an
`Unimplemented` error whenever `locator.size` differs from the link's
declared uncompressed length (compressed envelopes unsupported); otherwise
it raises a `Corrupt` error if the length encoded in the fetched buffer's
first `u64` does not equal the buffer length; and when it returns an
envelope, the fetched buffer has been fully drained (zero bytes remain
after reading the envelope), else it raises an error. -/
theorem c4_envelope_link_read :
    ∀ (α : Type) (link : REnvelopeLink) (fetchData : Nat → Nat → ReadBuffer)
      (readEnv : Reader α),
      (link.locator.size ≠ link.length →
        link.readEnvelope fetchData readEnv = .error .unimplemented) ∧
      (link.locator.size = link.length →
        8 ≤ (link.locator.getBuffer fetchData).data.length →
        leNat ((link.locator.getBuffer fetchData).data.take 8) / 65536 ≠
          (link.locator.getBuffer fetchData).data.length →
        link.readEnvelope fetchData readEnv = .error .corrupt) ∧
      (∀ env, link.readEnvelope fetchData readEnv = .ok env →
        ∃ b1, readEnv (link.locator.getBuffer fetchData) = .ok (env, b1) ∧ b1.data = []) := by
  intro α link fetchData readEnv
  refine ⟨?_, ?_, ?_⟩
  · intro hne
    unfold REnvelopeLink.readEnvelope
    rw [if_pos hne]
  · intro heq hlen hmis
    unfold REnvelopeLink.readEnvelope
    rw [if_neg (not_not_intro heq)]
    rw [show (link.locator.getBuffer fetchData).readU64LE =
        .ok (leNat ((link.locator.getBuffer fetchData).data.take 8),
          (link.locator.getBuffer fetchData).advance 8) from
      readPrim_eval _ _ hlen]
    rw [exceptBind_pureArg]
    simp only
    rw [if_pos hmis]
  · intro env h
    unfold REnvelopeLink.readEnvelope at h
    split at h
    · cases h
    · rw [exceptBind_ok] at h
      obtain ⟨⟨lengthType, bpeek⟩, hpeek, h⟩ := h
      simp only at h
      split at h
      · cases h
      · rw [exceptBind_ok] at h
        obtain ⟨⟨envelope, b1⟩, henv, h⟩ := h
        simp only at h
        split at h
        · cases h
        · next hdata =>
          rw [not_not] at hdata
          rw [Except.ok.injEq] at h
          subst h
          exact ⟨b1, henv, hdata⟩

/-- Witness for C4: an in-memory fetch serving a 16-byte envelope through
a standard locator (drained read), a link whose locator size 16 differs
from its declared length 10 (`Unimplemented`), and a fetched buffer whose
encoded length 16 differs from its 8-byte length (`Corrupt`). -/
theorem c4_witness :
    ((⟨16, .standard 16 0⟩ : REnvelopeLink).locator.size ≠
        (⟨10, .standard 16 0⟩ : REnvelopeLink).length →
      (⟨10, .standard 16 0⟩ : REnvelopeLink).readEnvelope
        (fun _ _ => ⟨[2, 0, 16, 0, 0, 0, 0, 0, 1, 0, 0, 0, 0, 0, 0, 0], none, 0, []⟩)
        (fun bb => .ok (42, bb.advance 16) : Reader Nat) = .error .unimplemented) ∧
    (⟨8, .standard 8 0⟩ : REnvelopeLink).readEnvelope
      (fun _ _ => ⟨[2, 0, 16, 0, 0, 0, 0, 0], none, 0, []⟩)
      (fun bb => .ok (42, bb.advance 8) : Reader Nat) = .error .corrupt ∧
    ∃ b1,
      (fun bb => .ok (42, bb.advance 16) : Reader Nat)
        ((⟨16, .standard 16 0⟩ : REnvelopeLink).locator.getBuffer
          (fun _ _ => ⟨[2, 0, 16, 0, 0, 0, 0, 0, 1, 0, 0, 0, 0, 0, 0, 0], none, 0, []⟩)) =
        .ok (42, b1) ∧ b1.data = [] :=
  ⟨fun _ =>
    (c4_envelope_link_read Nat ⟨10, .standard 16 0⟩
      (fun _ _ => ⟨[2, 0, 16, 0, 0, 0, 0, 0, 1, 0, 0, 0, 0, 0, 0, 0], none, 0, []⟩)
      (fun bb => .ok (42, bb.advance 16))).1 (by decide),
   (c4_envelope_link_read Nat ⟨8, .standard 8 0⟩
      (fun _ _ => ⟨[2, 0, 16, 0, 0, 0, 0, 0], none, 0, []⟩)
      (fun bb => .ok (42, bb.advance 8))).2.1 (by decide) (by decide) (by decide),
   (c4_envelope_link_read Nat ⟨16, .standard 16 0⟩
      (fun _ _ => ⟨[2, 0, 16, 0, 0, 0, 0, 0, 1, 0, 0, 0, 0, 0, 0, 0], none, 0, []⟩)
      (fun bb => .ok (42, bb.advance 16))).2.2 42 (by decide)⟩

/-- Claim C6: for every buffer, `RLocator.read` peeks a little-endian
signed 32-bit integer: if it is non-negative it returns a
`StandardLocator` consuming exactly 12 bytes, with size equal to that
integer's absolute value and offset equal to the following unsigned 64-bit
integer; if it is negative, the word is split into the low-16-bit locator
size, the next 8-bit reserved field and the high-8-bit type, and type
`0x01` yields a `LargeLocator` with `u64` size then `u64` offset (20 bytes
total consumed), while any other type raises an `UnknownLocatorType`
error.  (Note: Python's masking of the negative word keeps the sign bit in
the type byte, so the computed type is always at least `0x80` and the
`LargeLocator` branch is unreachable through `RLocator.read`.) -/
theorem c6_locator_read :
    (∀ b : ReadBuffer, 12 ≤ b.data.length →
      0 ≤ toSigned 32 (leNat (b.data.take 4)) →
      RLocator.read b = .ok
        (.standard (toSigned 32 (leNat (b.data.take 4))).natAbs
          (leNat ((b.data.drop 4).take 8)), b.advance 12)) ∧
    (∀ b : ReadBuffer, 20 ≤ b.data.length →
      toSigned 32 (leNat (b.data.take 4)) < 0 →
      RLocator.read b =
        if (toUnsigned 32 (toSigned 32 (leNat (b.data.take 4))) / 16777216) % 256 = 1 then
          .ok (.large (leNat ((b.data.drop 4).take 8)) (leNat ((b.data.drop 12).take 8)),
            b.advance 20)
        else .error .unknownLocatorType) := by
  constructor
  · intro b hlen hpos
    unfold RLocator.read
    rw [show b.readI32LE = .ok (toSigned 32 (leNat (b.data.take 4)), b.advance 4) from
      readPrim_eval _ b (by omega)]
    rw [exceptBind_pureArg]
    simp only
    rw [if_pos hpos]
    unfold StandardLocator.read
    rw [show b.readI32LE = .ok (toSigned 32 (leNat (b.data.take 4)), b.advance 4) from
      readPrim_eval _ b (by omega)]
    rw [exceptBind_pureArg]
    simp only
    rw [show (b.advance 4).readU64LE =
        .ok (leNat ((b.advance 4).data.take 8), (b.advance 4).advance 8) from
      readPrim_eval _ _ (by simp [ReadBuffer.advance]; omega)]
    rw [exceptBind_pureArg]
    simp only
    rw [advance_advance]
    rfl
  · intro b hlen hneg
    unfold RLocator.read
    rw [show b.readI32LE = .ok (toSigned 32 (leNat (b.data.take 4)), b.advance 4) from
      readPrim_eval _ b (by omega)]
    rw [exceptBind_pureArg]
    simp only
    rw [if_neg (not_le.mpr hneg)]
    rw [exceptBind_pureArg]
    simp only
    by_cases hq :
      (toUnsigned 32 (toSigned 32 (leNat (b.data.take 4))) / 16777216) % 256 = 1
    · rw [if_pos hq, if_pos hq]
      unfold LargeLocator.read
      rw [show (b.advance 4).readU64LE =
          .ok (leNat ((b.advance 4).data.take 8), (b.advance 4).advance 8) from
        readPrim_eval _ _ (by simp [ReadBuffer.advance]; omega)]
      rw [exceptBind_pureArg]
      simp only
      rw [advance_advance]
      rw [show ((b.advance 12).readU64LE) =
          .ok (leNat ((b.advance 12).data.take 8), (b.advance 12).advance 8) from
        readPrim_eval _ _ (by simp [ReadBuffer.advance]; omega)]
      rw [exceptBind_pureArg]
      simp only
      rw [advance_advance]
      rfl
    · rw [if_neg hq, if_neg hq]

/-- Witness for C6: a standard locator with size 5 and offset 9, and a
negative first word `0x80000000` whose computed type byte `0x80` is
rejected with `UnknownLocatorType`. -/
theorem c6_witness :
    RLocator.read (⟨[5, 0, 0, 0, 9, 0, 0, 0, 0, 0, 0, 0], none, 0, []⟩ : ReadBuffer) =
      .ok (.standard
        (toSigned 32 (leNat (([5, 0, 0, 0, 9, 0, 0, 0, 0, 0, 0, 0] : List Nat).take 4))).natAbs
        (leNat ((([5, 0, 0, 0, 9, 0, 0, 0, 0, 0, 0, 0] : List Nat).drop 4).take 8)),
        (⟨[5, 0, 0, 0, 9, 0, 0, 0, 0, 0, 0, 0], none, 0, []⟩ : ReadBuffer).advance 12) ∧
    RLocator.read
      (⟨[0, 0, 0, 128, 1, 0, 0, 0, 0, 0, 0, 0, 2, 0, 0, 0, 0, 0, 0, 0], none, 0, []⟩ :
        ReadBuffer) =
      (if (toUnsigned 32 (toSigned 32 (leNat
          (([0, 0, 0, 128, 1, 0, 0, 0, 0, 0, 0, 0, 2, 0, 0, 0, 0, 0, 0, 0] :
            List Nat).take 4))) / 16777216) % 256 = 1 then
        .ok (.large
          (leNat ((([0, 0, 0, 128, 1, 0, 0, 0, 0, 0, 0, 0, 2, 0, 0, 0, 0, 0, 0, 0] :
            List Nat).drop 4).take 8))
          (leNat ((([0, 0, 0, 128, 1, 0, 0, 0, 0, 0, 0, 0, 2, 0, 0, 0, 0, 0, 0, 0] :
            List Nat).drop 12).take 8)),
          (⟨[0, 0, 0, 128, 1, 0, 0, 0, 0, 0, 0, 0, 2, 0, 0, 0, 0, 0, 0, 0], none, 0, []⟩ :
            ReadBuffer).advance 20)
      else .error .unknownLocatorType) :=
  ⟨c6_locator_read.1 ⟨[5, 0, 0, 0, 9, 0, 0, 0, 0, 0, 0, 0], none, 0, []⟩
      (by decide) (by decide),
    c6_locator_read.2
      ⟨[0, 0, 0, 128, 1, 0, 0, 0, 0, 0, 0, 0, 2, 0, 0, 0, 0, 0, 0, 0], none, 0, []⟩
      (by decide) (by decide)⟩

/-- Claim C5: for every buffer fetched via `TKey.read_object`
(`fNbytes − fKeylen` bytes at offset `fSeekKey + fKeylen`): if the buffer
length equals `fObjlen` the object is decoded directly from those literal
bytes; otherwise an `RCompressed` block is read and an error is raised
unless its declared uncompressed size equals `fObjlen`, in which case
decoding proceeds on the decompressed bytes of length `fObjlen`; in either
case an error is raised if any bytes remain after decoding the object
(success implies the remainder is empty).  The decompressor obeys the
spec contract that its output length equals the declared uncompressed
size. -/
theorem c5_tkey_read_object :
    ∀ (Obj : Type) (key : TKeyS) (fetchData : Int → Int → ReadBuffer)
      (readCompressed : Reader RCompressedS)
      (decompress : RCompressedS → Except RErr (List Nat)) (readObj : Reader Obj),
      (∀ c out, decompress c = .ok out → out.length = c.uncompressedSize) →
      (((fetchData (key.fSeekKey + key.header.fKeylen)
            (key.header.fNbytes - key.header.fKeylen)).data.length : Int) =
          key.header.fObjlen →
        ∀ obj, TKey.readObject key fetchData readCompressed decompress readObj = .ok obj →
          ∃ bAfter,
            readObj (fetchData (key.fSeekKey + key.header.fKeylen)
              (key.header.fNbytes - key.header.fKeylen)) = .ok (obj, bAfter) ∧
            bAfter.data = []) ∧
      (((fetchData (key.fSeekKey + key.header.fKeylen)
            (key.header.fNbytes - key.header.fKeylen)).data.length : Int) ≠
          key.header.fObjlen →
        (∀ c rest,
          readCompressed (fetchData (key.fSeekKey + key.header.fKeylen)
            (key.header.fNbytes - key.header.fKeylen)) = .ok (c, rest) →
          (c.uncompressedSize : Int) ≠ key.header.fObjlen →
          TKey.readObject key fetchData readCompressed decompress readObj =
            .error .corrupt) ∧
        (∀ obj, TKey.readObject key fetchData readCompressed decompress readObj = .ok obj →
          ∃ c rest out bAfter,
            readCompressed (fetchData (key.fSeekKey + key.header.fKeylen)
              (key.header.fNbytes - key.header.fKeylen)) = .ok (c, rest) ∧
            (c.uncompressedSize : Int) = key.header.fObjlen ∧
            rest.data = [] ∧
            decompress c = .ok out ∧
            (out.length : Int) = key.header.fObjlen ∧
            readObj ⟨out, none, key.header.fKeylen.toNat, []⟩ = .ok (obj, bAfter) ∧
            bAfter.data = [])) := by
  intro Obj key fetchData readCompressed decompress readObj hdec
  constructor
  · intro hlit obj h
    unfold TKey.readObject at h
    rw [exceptBind_ok] at h
    obtain ⟨buffer, hbuf, h⟩ := h
    rw [if_pos hlit, Except.ok.injEq] at hbuf
    subst hbuf
    rw [exceptBind_ok] at h
    obtain ⟨⟨o, bAfter⟩, hobj, h⟩ := h
    simp only at h
    split at h
    · cases h
    · next hempty =>
      rw [not_not] at hempty
      rw [Except.ok.injEq] at h
      subst h
      exact ⟨bAfter, hobj, hempty⟩
  · intro hne
    constructor
    · intro c rest hrc hmis
      unfold TKey.readObject
      simp only
      rw [if_neg hne, hrc, exceptBind_pureArg]
      simp only
      rw [if_pos hmis, exceptBind_errArg]
    · intro obj h
      unfold TKey.readObject at h
      rw [exceptBind_ok] at h
      obtain ⟨buffer, hbuf, h⟩ := h
      rw [if_neg hne] at hbuf
      rw [exceptBind_ok] at hbuf
      obtain ⟨⟨c, rest⟩, hrc, hbuf⟩ := hbuf
      simp only at hbuf
      split at hbuf
      · cases hbuf
      · next hsz =>
        rw [not_not] at hsz
        split at hbuf
        · cases hbuf
        · next hrest =>
          rw [not_not] at hrest
          rw [exceptBind_ok] at hbuf
          obtain ⟨out, hout, hbuf⟩ := hbuf
          rw [Except.ok.injEq] at hbuf
          subst hbuf
          rw [exceptBind_ok] at h
          obtain ⟨⟨o, bAfter⟩, hobj, h⟩ := h
          simp only at h
          split at h
          · cases h
          · next hempty =>
            rw [not_not] at hempty
            rw [Except.ok.injEq] at h
            subst h
            refine ⟨c, rest, out, bAfter, hrc, hsz, hrest, hout, ?_, hobj, hempty⟩
            rw [hdec c out hout, hsz]

/-- Witness for C5 at a concrete key: the literal path on a 4-byte object
and the compressed path with a block declaring 4 uncompressed bytes
served by a decompressor emitting 4 zero bytes. -/
theorem c5_witness :
    (∃ bAfter,
      (fun bb => .ok (0, bb.advance 4) : Reader Nat)
        ((fun _ _ => (⟨[1, 2, 3, 4], none, 0, []⟩ : ReadBuffer)) ((0 : Int) + 10) ((14 : Int) - 10)) =
        .ok (0, bAfter) ∧ bAfter.data = []) ∧
    ∃ c rest out bAfter,
      (fun bb => .ok (⟨4⟩, bb.advance 2) : Reader RCompressedS)
        ((fun _ _ => (⟨[9, 9], none, 0, []⟩ : ReadBuffer)) ((0 : Int) + 10) ((12 : Int) - 10)) =
        .ok (c, rest) ∧
      ((c.uncompressedSize : Nat) : Int) = (4 : Int) ∧
      rest.data = [] ∧
      (fun cc => .ok (List.replicate cc.uncompressedSize 0) :
        RCompressedS → Except RErr (List Nat)) c = .ok out ∧
      ((out.length : Nat) : Int) = (4 : Int) ∧
      (fun bb => .ok (0, bb.advance 4) : Reader Nat)
        ⟨out, none, (10 : Int).toNat, []⟩ = .ok (0, bAfter) ∧
      bAfter.data = [] :=
  ⟨(c5_tkey_read_object Nat ⟨⟨14, 4, 4, 0, 10, 1⟩, 0, 0, ⟨[]⟩, ⟨[]⟩, ⟨[]⟩⟩
      (fun _ _ => ⟨[1, 2, 3, 4], none, 0, []⟩)
      (fun bb => .ok (⟨4⟩, bb.advance 2))
      (fun cc => .ok (List.replicate cc.uncompressedSize 0))
      (fun bb => .ok (0, bb.advance 4))
      (fun c out hout => by
        rw [Except.ok.injEq] at hout
        rw [← hout, List.length_replicate])).1 (by decide) 0 (by decide),
    ((c5_tkey_read_object Nat ⟨⟨12, 4, 4, 0, 10, 1⟩, 0, 0, ⟨[]⟩, ⟨[]⟩, ⟨[]⟩⟩
      (fun _ _ => ⟨[9, 9], none, 0, []⟩)
      (fun bb => .ok (⟨4⟩, bb.advance 2))
      (fun cc => .ok (List.replicate cc.uncompressedSize 0))
      (fun bb => .ok (0, bb.advance 4))
      (fun c out hout => by
        rw [Except.ok.injEq] at hout
        rw [← hout, List.length_replicate])).2 (by decide)).2 0 (by decide)⟩
